import Mathlib

/-!
Verification development for an OpenAPI-to-tool-catalog server.

Shallow embedding of the core TypeScript components:
* `Cache`            — the TTL cache (src/unnamed/part_003).
* `requestLoop`      — the resilient HTTP client's retry loop
                       (src/apps/petstore-api/src/resources/resource-handler.ts,
                       class HttpClient).
* `SchemaValidator`  — recursive schema validation
                       (src/apps/petstore-api/src/utils/schema-validator.ts).
* `OpenApiLoader`    — catalog generation from a specification document
                       (src/unnamed/part_001).
* `ToolExecutor`     — argument validation, request building, caching and
                       dispatch (src/unnamed/part_002).

JavaScript runtime values are modelled by the inductive type `Value`;
machine time (`Date.now()`) is an explicit `Nat` parameter; the external
HTTP transport and the JS `RegExp` engine are abstracted as function
parameters (`backend`, `regexTest`).
-/

namespace PetstoreMcp

/-- Model of a JavaScript runtime value as it flows through the executor and
the validator.  Numbers are rationals so that `Number.isInteger` is a real
test; `undefined` models the absent / `undefined` case that `args[p.name] ===
undefined` checks distinguish from `null`. -/
inductive Value where
  | undefined : Value
  | null : Value
  | str : String → Value
  | num : Rat → Value
  | bool : Bool → Value
  | arr : List Value → Value
  | obj : List (String × Value) → Value
deriving Repr

/-- Structural equality on values.  The executor and validator compare
values only at primitive types (`args[p.name] === undefined`,
`schema.enum.includes(value)` with a string left operand), where JS `===`
coincides with structural equality. -/
def Value.beq : Value → Value → Bool
  | .undefined, .undefined => true
  | .null, .null => true
  | .str a, .str b => a == b
  | .num a, .num b => a == b
  | .bool a, .bool b => a == b
  | .arr a, .arr b => beqList a b
  | .obj a, .obj b => beqFields a b
  | _, _ => false
where
  beqList : List Value → List Value → Bool
    | [], [] => true
    | x :: xs, y :: ys => Value.beq x y && beqList xs ys
    | _, _ => false
  beqFields : List (String × Value) → List (String × Value) → Bool
    | [], [] => true
    | (k, x) :: xs, (l, y) :: ys => k == l && Value.beq x y && beqFields xs ys
    | _, _ => false

instance : BEq Value := ⟨Value.beq⟩

/-- Argument lookup: `args[name]`, where a missing key reads as
`undefined`. -/
def argOf (args : List (String × Value)) (name : String) : Value :=
  (args.lookup name).getD .undefined

/-- JS record assignment `m[k] = v`: overwrite in place when the key exists,
append otherwise (JS objects keep first-insertion key order). -/
def recordSet (m : List (String × Value)) (k : String) (v : Value) :
    List (String × Value) :=
  if m.any (fun p => p.1 == k) then
    m.map (fun p => if p.1 == k then (k, v) else p)
  else
    m ++ [(k, v)]

/-- Key-presence test `k in value` for a JS object. -/
def hasKey (m : List (String × Value)) (k : String) : Bool :=
  m.any (fun p => p.1 == k)

/-! ### String helpers used by the executor -/

/-- Split `hay` at the first occurrence of `pat`, returning the part before
and the part after; `none` when `pat` does not occur. -/
def splitAtSub (hay pat : List Char) : Option (List Char × List Char) :=
  if pat.isPrefixOf hay then some ([], hay.drop pat.length)
  else
    match hay with
    | [] => none
    | c :: t => (splitAtSub t pat).map (fun p => (c :: p.1, p.2))

/-- JS `String.prototype.replace` with a string pattern: replaces only the
first occurrence. -/
def replaceFirst (hay pat rep : String) : String :=
  match splitAtSub hay.data pat.data with
  | none => hay
  | some (before, after) => ⟨before ++ rep.data ++ after⟩

/-- Single left-to-right pass for all matches of `/{[^}]+}/g` (leftmost,
non-overlapping).  The second argument is the scan state: `none` outside a
candidate; `some acc` after an opening brace, holding the candidate body
read so far in reverse.  A closing brace after a nonempty body emits the
match (braces included); a closing brace right after the opener emits
nothing (the regex needs one or more body characters) and scanning resumes,
matching the regex engine's behaviour. -/
def scanTokens : List Char → Option (List Char) → List String
  | [], _ => []
  | c :: rest, none =>
    if c = '{' then scanTokens rest (some []) else scanTokens rest none
  | c :: rest, some acc =>
    if c = '}' then
      if acc.isEmpty then scanTokens rest none
      else ('{' :: acc.reverse ++ ['}']).asString :: scanTokens rest none
    else scanTokens rest (some (c :: acc))

/-- All matches of `url.match(/{[^}]+}/g)` — the unreplaced-token scan of
`ToolExecutor.buildRequest`. -/
def findTokens (l : List Char) : List String :=
  scanTokens l none

/-- Characters `encodeURIComponent` leaves unescaped. -/
def isUnreservedUri (c : Char) : Bool :=
  (c ≥ 'A' && c ≤ 'Z') || (c ≥ 'a' && c ≤ 'z') || (c ≥ '0' && c ≤ '9') ||
  c = '-' || c = '_' || c = '.' || c = '!' || c = '~' || c = '*' ||
  c = '(' || c = ')' || c = '\''

def hexDigit (n : Nat) : Char :=
  if n < 10 then Char.ofNat ('0'.toNat + n)
  else Char.ofNat ('A'.toNat + (n - 10))

def percentByte (b : Nat) : List Char :=
  ['%', hexDigit (b / 16), hexDigit (b % 16)]

/-- UTF-8 bytes of a character. -/
def utf8Bytes (c : Char) : List Nat :=
  let n := c.toNat
  if n < 0x80 then [n]
  else if n < 0x800 then [0xC0 + n / 64, 0x80 + n % 64]
  else if n < 0x10000 then
    [0xE0 + n / 4096, 0x80 + n / 64 % 64, 0x80 + n % 64]
  else
    [0xF0 + n / 262144, 0x80 + n / 4096 % 64, 0x80 + n / 64 % 64,
     0x80 + n % 64]

/-- JS `encodeURIComponent`: unreserved characters pass through, everything
else is percent-encoded per UTF-8 byte. -/
def encodeURIComponent (s : String) : String :=
  ⟨s.data.flatMap (fun c =>
    if isUnreservedUri c then [c] else (utf8Bytes c).flatMap percentByte)⟩

/-- Decimal expansion of a rational by long division, `fuel` digits deep.
JS prints the shortest round-trip decimal of a float; for the terminating
fractions that occur in practice this long division is exact. -/
def fracDigits (num den fuel : Nat) : List Char :=
  match fuel with
  | 0 => []
  | f + 1 =>
    if num = 0 then []
    else
      let d := num * 10 / den
      Char.ofNat ('0'.toNat + d % 10) :: fracDigits (num * 10 % den) den f

/-- JS number-to-string: exact for integers, decimal expansion otherwise. -/
def jsNumToString (q : Rat) : String :=
  if q.den = 1 then toString q.num
  else
    let sign := if q.num < 0 then "-" else ""
    let a := q.num.natAbs
    sign ++ toString (a / q.den) ++ "." ++ ⟨fracDigits (a % q.den) q.den 20⟩

/-- JS `String(value)` as used for path-parameter substitution. -/
def jsToString : Value → String
  | .undefined => "undefined"
  | .null => "null"
  | .str s => s
  | .num q => jsNumToString q
  | .bool b => if b then "true" else "false"
  | .arr _ => ""  -- Array.prototype.toString joins elements; path parameters
                  -- are scalars, the executor never substitutes an array
  | .obj _ => "[object Object]"

/-- JSON string escaping as performed by `JSON.stringify`. -/
def jsonEscapeChar (c : Char) : List Char :=
  if c = '"' then ['\\', '"']
  else if c = '\\' then ['\\', '\\']
  else if c = '\n' then ['\\', 'n']
  else if c = '\r' then ['\\', 'r']
  else if c = '\t' then ['\\', 't']
  else if c.toNat < 0x20 then
    ['\\', 'u', '0', '0', hexDigit (c.toNat / 16), hexDigit (c.toNat % 16)]
  else [c]

def jsonEscape (s : String) : String :=
  ⟨s.data.flatMap jsonEscapeChar⟩

/-- `JSON.stringify` over the value model.  `undefined` members of an
object are dropped, `undefined` array elements serialize as `null` —
matching the JS behaviour. -/
def jsonStringify : Value → String
  | .undefined => ""     -- JSON.stringify(undefined) is undefined; never used at
                     -- the top level by the executor
  | .null => "null"
  | .str s => "\"" ++ jsonEscape s ++ "\""
  | .num q => jsNumToString q
  | .bool b => if b then "true" else "false"
  | .arr vs => "[" ++ joinComma (stringifyList vs) ++ "]"
  | .obj fs => "\x7b" ++ joinComma (stringifyFields fs) ++ "\x7d"
where
  stringifyList : List Value → List String
    | [] => []
    | .undefined :: vs => "null" :: stringifyList vs
    | v :: vs => jsonStringify v :: stringifyList vs
  stringifyFields : List (String × Value) → List String
    | [] => []
    | (_, .undefined) :: fs => stringifyFields fs
    | (k, v) :: fs =>
      ("\"" ++ jsonEscape k ++ "\":" ++ jsonStringify v) :: stringifyFields fs
  joinComma : List String → String
    | [] => ""
    | [s] => s
    | s :: rest => s ++ "," ++ joinComma rest

/-! ### TTL Cache (src/unnamed/part_003, class `Cache`) -/

/-- One cache entry: the stored value, its insertion time (`Date.now()` at
`set`), and its time-to-live in milliseconds. -/
structure CacheEntry (T : Type) where
  data : T
  timestamp : Nat
  ttl : Nat
deriving Repr, DecidableEq

/-- The cache: a keyed map plus the configured default TTL.  The JS `Map`
is modelled as an association list with unique keys by construction. -/
structure CacheState (T : Type) where
  defaultTTL : Nat
  entries : List (String × CacheEntry T)
deriving Repr

namespace CacheState

/-- An empty cache with the given default TTL (constructor default:
300000 ms). -/
def empty (T : Type) (defaultTTL : Nat := 300000) : CacheState T :=
  ⟨defaultTTL, []⟩

/-- `Map.get`. -/
def lookup (c : CacheState T) (key : String) : Option (CacheEntry T) :=
  c.entries.lookup key

/-- `Map.delete`. -/
def deleteKey (c : CacheState T) (key : String) : CacheState T :=
  ⟨c.defaultTTL, c.entries.filter (fun p => p.1 ≠ key)⟩

/-- `Cache.set(key, data, ttl?)` at time `now`.  The source computes the
entry's TTL as `ttl || this.defaultTTL`, so an absent *or zero* `ttl`
argument falls back to the default. -/
def set (c : CacheState T) (key : String) (data : T) (ttl : Option Nat)
    (now : Nat) : CacheState T :=
  let entryTtl := match ttl with
    | some t => if t = 0 then c.defaultTTL else t
    | none => c.defaultTTL
  ⟨c.defaultTTL,
   (key, ⟨data, now, entryTtl⟩) :: c.entries.filter (fun p => p.1 ≠ key)⟩

/-- `Cache.get(key)` at time `now`: a miss when absent; when present,
expired iff `now - timestamp > ttl` (strict), in which case the entry is
deleted and the read is a miss; otherwise a hit.  Returns the value (or
`none`) together with the cache after the read. -/
def get (c : CacheState T) (key : String) (now : Nat) :
    Option T × CacheState T :=
  match c.entries.lookup key with
  | none => (none, c)
  | some entry =>
    if now - entry.timestamp > entry.ttl then (none, c.deleteKey key)
    else (some entry.data, c)

/-- `Cache.cleanup()`: the periodic sweep removing every expired entry. -/
def cleanup (c : CacheState T) (now : Nat) : CacheState T :=
  ⟨c.defaultTTL,
   c.entries.filter (fun p => ¬ (now - p.2.timestamp > p.2.ttl))⟩

/-- `Cache.clear()`. -/
def clear (c : CacheState T) : CacheState T := ⟨c.defaultTTL, []⟩

/-- `Cache.size()`. -/
def size (c : CacheState T) : Nat := c.entries.length

end CacheState

/-! ### Resilient HTTP client
(src/apps/petstore-api/src/resources/resource-handler.ts, class
`HttpClient`)

One attempt of the underlying axios client either yields a response with a
status code or fails at the network level.  Axios turns a received
response into a thrown error exactly when the request's `validateStatus`
predicate rejects the status (default: `200 <= status < 300`); the thrown
error then carries the response (`error.response`).  A network/timeout
failure throws an error with no response. -/

/-- Outcome of a single wire-level attempt. -/
inductive AttemptOutcome where
  | resp : Nat → AttemptOutcome
  | netErr : AttemptOutcome
deriving Repr, DecidableEq

/-- The error an attempt throws: either no response was received at all, or
a response whose status `validateStatus` rejected. -/
inductive HttpError where
  | network : HttpError
  | httpStatus : Nat → HttpError
deriving Repr, DecidableEq

/-- Result of one attempt under a given `validateStatus` predicate. -/
def attemptResult (validateStatus : Nat → Bool) :
    AttemptOutcome → Except HttpError Nat
  | .netErr => .error .network
  | .resp s => if validateStatus s then .ok s else .error (.httpStatus s)

/-- Axios's default `validateStatus`: `200 <= status < 300`. -/
def defaultValidateStatus (s : Nat) : Bool :=
  decide (200 ≤ s) && decide (s < 300)

/-- `HttpClient.shouldRetry(error, attempt)`: retry on network errors or
5xx server errors, only while `attempt < this.maxRetries`. -/
def shouldRetry (maxRetries : Nat) (e : HttpError) (attempt : Nat) : Bool :=
  decide (attempt < maxRetries) &&
    (match e with
     | .network => true
     | .httpStatus s => decide (500 ≤ s) && decide (s < 600))

/-- The retry loop of `HttpClient.request`, one constructor per iteration of
`for (let attempt = 0; attempt <= this.maxRetries; attempt++)`.  `backend i`
is the wire outcome of the `i`-th attempt.  Returns the final result, the
number of attempts actually issued, and the list of backoff delays waited
(each `retryDelay * 2 ^ attempt` for the attempt that just failed).  The
`fuel = 0` case is the fall-through `throw lastError` after the loop, which
is unreachable when the loop starts with `fuel = maxRetries + 1`. -/
def requestLoop (validateStatus : Nat → Bool) (backend : Nat → AttemptOutcome)
    (maxRetries retryDelay : Nat) :
    Nat → Nat → Option HttpError → Except HttpError Nat × Nat × List Nat
  | _, 0, lastError => (.error (lastError.getD .network), 0, [])
  | attempt, fuel + 1, _ =>
    match attemptResult validateStatus (backend attempt) with
    | .ok s => (.ok s, 1, [])
    | .error e =>
      if shouldRetry maxRetries e attempt then
        let r := requestLoop validateStatus backend maxRetries retryDelay
          (attempt + 1) fuel (some e)
        (r.1, r.2.1 + 1, retryDelay * 2 ^ attempt :: r.2.2)
      else (.error e, 1, [])

/-- `HttpClient.request`: run the loop from attempt 0. -/
def request (validateStatus : Nat → Bool) (backend : Nat → AttemptOutcome)
    (maxRetries retryDelay : Nat) : Except HttpError Nat × Nat × List Nat :=
  requestLoop validateStatus backend maxRetries retryDelay 0 (maxRetries + 1)
    none

/-! ### Schema validator
(src/apps/petstore-api/src/utils/schema-validator.ts, class
`SchemaValidator`)

The loosely-typed OpenAPI schema object is modelled as a record of its
scalar fields (`SchemaCore`) plus the two recursive fields (`items`,
`properties`).  The JS `RegExp` engine is abstracted as the parameter
`regexTest pattern value`. -/

/-- The non-recursive fields of an OpenAPI schema object as read by the
validator.  `ref` models the `'$ref' in schema` check. -/
structure SchemaCore where
  ref : Option String := none
  type : Option String := none
  enum : Option (List Value) := none
  pattern : Option String := none
  minLength : Option Nat := none
  maxLength : Option Nat := none
  minimum : Option Rat := none
  maximum : Option Rat := none
  exclusiveMinimum : Bool := false
  exclusiveMaximum : Bool := false
  minItems : Option Nat := none
  maxItems : Option Nat := none
  required : Option (List String) := none
  additionalProperties : Option Bool := none
  nullable : Bool := false
deriving Repr

/-- A schema: scalar fields plus the recursive `items` / `properties`. -/
inductive Schema where
  | mk (core : SchemaCore) (items : Option Schema)
       (properties : Option (List (String × Schema)))

def Schema.core : Schema → SchemaCore
  | .mk c _ _ => c

def Schema.items : Schema → Option Schema
  | .mk _ i _ => i

def Schema.properties : Schema → Option (List (String × Schema))
  | .mk _ _ p => p

/-- The errors thrown by `SchemaValidator`, carrying the data interpolated
into each `throw new Error(...)` message. -/
inductive VError where
  | required (param : String)
  | mustBeString (param : String)
  | mustBeNumber (param : String)
  | mustBeBoolean (param : String)
  | mustBeArray (param : String)
  | mustBeObject (param : String)
  | enumMismatch (param : String) (allowed : List Value)
  | patternMismatch (param : String) (pat : String)
  | minLengthViol (param : String) (bound : Nat)
  | maxLengthViol (param : String) (bound : Nat)
  | minimumViol (param : String) (bound : Rat) (exclusive : Bool)
  | maximumViol (param : String) (bound : Rat) (exclusive : Bool)
  | mustBeInteger (param : String)
  | minItemsViol (param : String) (bound : Nat)
  | maxItemsViol (param : String) (bound : Nat)
  | requiredProp (prop : String) (param : String)
  | unexpectedProps (param : String) (extra : List String)
deriving Repr

/-- `schema.enum.includes(value)` for a string `value` (JS `===` of a string
against an arbitrary enum member). -/
def includesStr (l : List Value) (s : String) : Bool :=
  l.any (fun e => e == Value.str s)

/-- `Object.keys(schema.properties || {})`. -/
def definedPropsOf (s : Schema) : List String :=
  match s.properties with
  | some props => props.map Prod.fst
  | none => []

/-- `Object.keys(value).filter(key => !definedProps.includes(key))`. -/
def extraPropsOf (fields : List (String × Value)) (s : Schema) :
    List String :=
  (fields.map Prod.fst).filter (fun key => ¬ (definedPropsOf s).contains key)

/-- The enum stage of `validateString`: `if (schema.enum && ...)`; an
empty enum list is truthy in JS, so it rejects everything. -/
def checkEnum (s : Schema) (value : String) (paramName : String) :
    Except VError Unit :=
  match s.core.enum with
  | some allowed =>
    if ¬ includesStr allowed value then
      .error (.enumMismatch paramName allowed)
    else .ok ()
  | none => .ok ()

/-- The pattern stage of `validateString`: `if (schema.pattern)`; the empty
pattern string is falsy in JS, so it is skipped. -/
def checkPattern (regexTest : String → String → Bool) (s : Schema)
    (value : String) (paramName : String) : Except VError Unit :=
  match s.core.pattern with
  | some pat =>
    if pat ≠ "" ∧ ¬ regexTest pat value then
      .error (.patternMismatch paramName pat)
    else .ok ()
  | none => .ok ()

/-- The length stages of `validateString` (string length is the number of
characters). -/
def checkMinLength (s : Schema) (value : String) (paramName : String) :
    Except VError Unit :=
  match s.core.minLength with
  | some n =>
    if value.length < n then .error (.minLengthViol paramName n) else .ok ()
  | none => .ok ()

def checkMaxLength (s : Schema) (value : String) (paramName : String) :
    Except VError Unit :=
  match s.core.maxLength with
  | some n =>
    if value.length > n then .error (.maxLengthViol paramName n) else .ok ()
  | none => .ok ()

/-- `SchemaValidator.validateString`: enum, pattern, then length bounds,
fail-fast. -/
def validateString (regexTest : String → String → Bool) (value : String)
    (s : Schema) (paramName : String) : Except VError Unit :=
  checkEnum s value paramName >>= fun _ =>
  checkPattern regexTest s value paramName >>= fun _ =>
  checkMinLength s value paramName >>= fun _ =>
  checkMaxLength s value paramName

/-- The bound stages of `validateNumber`, respecting
`exclusiveMinimum/exclusiveMaximum === true`. -/
def checkMinimum (s : Schema) (value : Rat) (paramName : String) :
    Except VError Unit :=
  match s.core.minimum with
  | some m =>
    if (if s.core.exclusiveMinimum then value ≤ m else value < m) then
      .error (.minimumViol paramName m s.core.exclusiveMinimum)
    else .ok ()
  | none => .ok ()

def checkMaximum (s : Schema) (value : Rat) (paramName : String) :
    Except VError Unit :=
  match s.core.maximum with
  | some m =>
    if (if s.core.exclusiveMaximum then value ≥ m else value > m) then
      .error (.maximumViol paramName m s.core.exclusiveMaximum)
    else .ok ()
  | none => .ok ()

/-- The `Number.isInteger` stage of `validateNumber` (`q.den = 1` on the
rational model). -/
def checkIntegerType (s : Schema) (value : Rat) (paramName : String) :
    Except VError Unit :=
  if s.core.type = some "integer" ∧ value.den ≠ 1 then
    .error (.mustBeInteger paramName)
  else .ok ()

/-- `SchemaValidator.validateNumber`: minimum, maximum, integer-ness,
fail-fast. -/
def validateNumber (value : Rat) (s : Schema) (paramName : String) :
    Except VError Unit :=
  checkMinimum s value paramName >>= fun _ =>
  checkMaximum s value paramName >>= fun _ =>
  checkIntegerType s value paramName

/-- The item-count stages of `validateArray`. -/
def checkMinItems (s : Schema) (vs : List Value) (paramName : String) :
    Except VError Unit :=
  match s.core.minItems with
  | some n =>
    if vs.length < n then .error (.minItemsViol paramName n) else .ok ()
  | none => .ok ()

def checkMaxItems (s : Schema) (vs : List Value) (paramName : String) :
    Except VError Unit :=
  match s.core.maxItems with
  | some n =>
    if vs.length > n then .error (.maxItemsViol paramName n) else .ok ()
  | none => .ok ()

/-- The required-property stage of `validateObject`: the `for` loop throws
at the first name of `schema.required` missing from the value. -/
def checkRequiredProps (fields : List (String × Value)) (s : Schema)
    (paramName : String) : Except VError Unit :=
  match s.core.required with
  | some reqProps =>
    match reqProps.find? (fun rp => ¬ hasKey fields rp) with
    | some missing => .error (.requiredProp missing paramName)
    | none => .ok ()
  | none => .ok ()

/-- The `additionalProperties === false` stage of `validateObject`. -/
def checkAdditionalProps (fields : List (String × Value)) (s : Schema)
    (paramName : String) : Except VError Unit :=
  if s.core.additionalProperties = some false then
    if extraPropsOf fields s ≠ [] then
      .error (.unexpectedProps paramName (extraPropsOf fields s))
    else .ok ()
  else .ok ()

theorem sizeOf_items_lt (s it : Schema) (h : s.items = some it) :
    sizeOf it < sizeOf s := by
  cases s with
  | mk core items props =>
    simp [Schema.items] at h
    subst h
    simp
    omega

theorem sizeOf_props_lt (s : Schema) (props : List (String × Schema))
    (h : s.properties = some props) : sizeOf props < sizeOf s := by
  cases s with
  | mk core items props' =>
    simp [Schema.properties] at h
    subst h
    simp
    omega

mutual

/-- `value === undefined || value === null`. -/
def isNullish : Value → Bool
  | .undefined => true
  | .null => true
  | _ => false

/-- `SchemaValidator.validate(value, schema, paramName)`.  A `$ref` schema
is skipped; an absent/null value passes iff the schema is nullable or its
`required` field is JS-falsy; otherwise dispatch on `schema.type` with a
native type check first (an unknown or missing type falls through the
switch and passes).  The `switch` is rendered as a chain of disjoint
tests. -/
def validate (regexTest : String → String → Bool) (s : Schema) (v : Value)
    (paramName : String) : Except VError Unit :=
  if (s.core.ref).isSome then .ok ()
  else if isNullish v then
    if s.core.nullable = true ∨ s.core.required = none then .ok ()
    else .error (.required paramName)
  else if s.core.type = some "string" then
    match v with
    | .str sv => validateString regexTest sv s paramName
    | _ => .error (.mustBeString paramName)
  else if s.core.type = some "number" ∨ s.core.type = some "integer" then
    match v with
    | .num q => validateNumber q s paramName
    | _ => .error (.mustBeNumber paramName)
  else if s.core.type = some "boolean" then
    match v with
    | .bool _ => .ok ()
    | _ => .error (.mustBeBoolean paramName)
  else if s.core.type = some "array" then
    match v with
    | .arr vs => validateArray regexTest vs s paramName
    | _ => .error (.mustBeArray paramName)
  else if s.core.type = some "object" then
    match v with
    | .obj fields => validateObject regexTest fields s paramName
    | _ => .error (.mustBeObject paramName)
  else .ok ()
termination_by ((sizeOf s, 2, 0) : Nat × Nat × Nat)
decreasing_by
  all_goals
    first
    | (apply Prod.Lex.left
       first | omega | (simp <;> omega))
    | (apply Prod.Lex.right
       first
       | (apply Prod.Lex.left
          first | omega | (simp <;> omega))
       | (apply Prod.Lex.right
          first | omega | (simp <;> omega)))

/-- `SchemaValidator.validateArray`: item-count bounds, then recursion into
each element against `items` when declared (`if (arraySchema.items)`; a
present `items` object is always truthy). -/
def validateArray (regexTest : String → String → Bool) (vs : List Value)
    (s : Schema) (paramName : String) : Except VError Unit :=
  checkMinItems s vs paramName >>= fun _ =>
  checkMaxItems s vs paramName >>= fun _ =>
  match hit : s.items with
  | some it =>
    have _h := sizeOf_items_lt s it hit
    validateItems regexTest it vs paramName 0
  | none => .ok ()
termination_by ((sizeOf s, 1, 0) : Nat × Nat × Nat)
decreasing_by
  apply Prod.Lex.left
  omega

/-- The `value.forEach((item, index) => this.validate(item, items, ...))`
loop: fail-fast at the first failing element, naming it with its index. -/
def validateItems (regexTest : String → String → Bool) (it : Schema)
    (vs : List Value) (paramName : String) (idx : Nat) : Except VError Unit :=
  match vs with
  | [] => .ok ()
  | v :: rest =>
    validate regexTest it v (paramName ++ "[" ++ toString idx ++ "]") >>=
      fun _ => validateItems regexTest it rest paramName (idx + 1)
termination_by ((sizeOf it, 2, sizeOf vs) : Nat × Nat × Nat)
decreasing_by
  all_goals
    first
    | (apply Prod.Lex.left
       first | omega | (simp <;> omega))
    | (apply Prod.Lex.right
       first
       | (apply Prod.Lex.left
          first | omega | (simp <;> omega))
       | (apply Prod.Lex.right
          first | omega | (simp <;> omega)))

/-- `SchemaValidator.validateObject`: required-property check, then
recursion into each declared property present in the value, then the
`additionalProperties === false` check. -/
def validateObject (regexTest : String → String → Bool)
    (fields : List (String × Value)) (s : Schema) (paramName : String) :
    Except VError Unit :=
  checkRequiredProps fields s paramName >>= fun _ =>
  (match hprops : s.properties with
   | some props =>
     have _h := sizeOf_props_lt s props hprops
     validateProps regexTest fields props paramName
   | none => .ok ()) >>= fun _ =>
  checkAdditionalProps fields s paramName
termination_by ((sizeOf s, 1, 0) : Nat × Nat × Nat)
decreasing_by
  apply Prod.Lex.left
  omega

/-- The `for (const [propName, propSchema] of Object.entries(...))` loop:
validate each declared property present in the value, fail-fast. -/
def validateProps (regexTest : String → String → Bool)
    (fields : List (String × Value)) (props : List (String × Schema))
    (paramName : String) : Except VError Unit :=
  match props with
  | [] => .ok ()
  | (propName, propSchema) :: rest =>
    (match fields.lookup propName with
     | some propValue =>
       validate regexTest propSchema propValue (paramName ++ "." ++ propName)
     | none => .ok ()) >>= fun _ =>
    validateProps regexTest fields rest paramName
termination_by ((sizeOf props, 2, 0) : Nat × Nat × Nat)
decreasing_by
  all_goals
    first
    | (apply Prod.Lex.left
       first | omega | (simp <;> omega))
    | (apply Prod.Lex.right
       first
       | (apply Prod.Lex.left
          first | omega | (simp <;> omega))
       | (apply Prod.Lex.right
          first | omega | (simp <;> omega)))

end

/-! ### Catalog builder (src/unnamed/part_001, class `OpenApiLoader`) -/

/-- A declared (resolved) OpenAPI parameter object; `location` is the
OpenAPI `in` field. -/
structure SpecParam where
  name : String
  description : Option String := none
  required : Option Bool := none
  schema : Option Schema := none
  location : String

/-- One entry of an operation's `parameters` array: inline, or a same-
document `$ref` pointer. -/
inductive SpecParamEntry where
  | inline (p : SpecParam)
  | paramRef (ref : String)

/-- A declared request body.  `jsonSchema` is
`requestBody.content['application/json'].schema`; `none` covers a missing
`application/json` entry or one without a schema (either way no body
parameter is synthesized). -/
structure SpecRequestBody where
  description : Option String := none
  required : Option Bool := none
  jsonSchema : Option Schema := none

structure SpecOperation where
  operationId : Option String := none
  summary : Option String := none
  description : Option String := none
  parameters : List SpecParamEntry := []
  requestBody : Option SpecRequestBody := none

structure SpecPathItem where
  get : Option SpecOperation := none
  post : Option SpecOperation := none
  put : Option SpecOperation := none
  delete : Option SpecOperation := none
  patch : Option SpecOperation := none

/-- The parsed specification document.  `resolveReference` walks a
same-document `#/...` JSON pointer; the pointers reaching parameter
objects are modelled as the keyed map `parameterComponents` (keyed by the
full pointer string). -/
structure OpenAPIDoc where
  paths : List (String × Option SpecPathItem) := []
  parameterComponents : List (String × SpecParam) := []

/-- `OpenApiLoader.resolveReference`: `null` unless the pointer starts with
`#/`; otherwise walk the document (a failed walk is `none`). -/
def resolveReference (doc : OpenAPIDoc) (ref : String) : Option SpecParam :=
  if ref.startsWith "#/" then doc.parameterComponents.lookup ref else none

/-- One derived tool parameter (the `ToolParameter` type of the source). -/
structure ToolParameter where
  name : String
  description : Option String := none
  required : Bool
  type : String
  location : String
  schema : Option Schema := none

/-- One derived operation (the `ApiTool` type of the source). -/
structure ApiTool where
  name : String
  description : String
  method : String
  path : String
  parameters : List ToolParameter

/-- JS `a || b` for strings: the empty string is falsy. -/
def orElseStr (o : Option String) (d : String) : String :=
  match o with
  | some s => if s = "" then d else s
  | none => d

def isAlphaNum (c : Char) : Bool :=
  (c ≥ 'A' && c ≤ 'Z') || (c ≥ 'a' && c ≤ 'z') || (c ≥ '0' && c ≤ '9')

/-- `path.replace(/[^a-zA-Z0-9]/g, '_')`. -/
def sanitizeForName (s : String) : String :=
  ⟨s.data.map (fun c => if isAlphaNum c then c else '_')⟩

/-- Build one `ToolParameter` from a resolved parameter object:
`required: param.required || false`, `type: param.schema?.type || 'string'`,
`location: param.in`. -/
def mkToolParam (p : SpecParam) : ToolParameter :=
  { name := p.name
    description := p.description
    required := p.required.getD false
    type := orElseStr (match p.schema with
      | some s => s.core.type
      | none => none) "string"
    location := p.location
    schema := p.schema }

/-- `OpenApiLoader.createToolFromOperation`.  The name is the declared
`operationId`, else `method_sanitizedPath`; the description is
`summary || description || "METHOD path"`; `$ref` parameters are resolved
and skipped when resolution fails; a declared JSON request body adds one
parameter named `body`.  The surrounding try/catch returns `null` on a
thrown error; nothing in the model throws, so this always succeeds. -/
def createToolFromOperation (doc : OpenAPIDoc) (path method : String)
    (op : SpecOperation) : Option ApiTool :=
  let operationId :=
    orElseStr op.operationId (method ++ "_" ++ sanitizeForName path)
  let description :=
    orElseStr op.summary
      (orElseStr op.description (method.toUpper ++ " " ++ path))
  let params := op.parameters.foldl (fun acc entry =>
    match entry with
    | .inline p => acc ++ [mkToolParam p]
    | .paramRef r =>
      match resolveReference doc r with
      | some p => acc ++ [mkToolParam p]
      | none => acc) []
  let params := match op.requestBody with
    | some rb =>
      match rb.jsonSchema with
      | some sch => params ++
          [{ name := "body"
             description := some (orElseStr rb.description "Request body")
             required := rb.required.getD false
             type := "object"
             location := "body"
             schema := some sch }]
      | none => params
    | none => params
  some { name := operationId, description := description, method := method
         path := path, parameters := params }

/-- JS `Map.prototype.set` / record assignment on a keyed list: overwrite in
place when the key exists (keeping its position), append otherwise. -/
def mapSet {α : Type} (m : List (String × α)) (k : String) (v : α) :
    List (String × α) :=
  if m.any (fun p => p.1 == k) then
    m.map (fun p => if p.1 == k then (k, v) else p)
  else m ++ [(k, v)]

/-- `OpenApiLoader.generateToolsFromSpec`: walk every path and each of the
five methods present, derive a tool, and insert it into the catalog map by
name. -/
def generateToolsFromSpec (doc : OpenAPIDoc) : List (String × ApiTool) :=
  doc.paths.foldl (fun acc pathPair =>
    match pathPair.2 with
    | none => acc
    | some item =>
      [("get", item.get), ("post", item.post), ("put", item.put),
       ("delete", item.delete), ("patch", item.patch)].foldl
        (fun acc mp =>
          match mp.2 with
          | none => acc
          | some op =>
            match createToolFromOperation doc pathPair.1 mp.1 op with
            | some tool => mapSet acc tool.name tool
            | none => acc) acc) []

/-! ### Operation executor (src/unnamed/part_002, class `ToolExecutor`) -/

/-- Server configuration (src/unnamed/part_003, `Config`). -/
structure Config where
  petstoreApiBase : String
  openApiSpecUrl : String
  cacheTTL : Nat
  maxRetries : Nat
  retryDelay : Nat
  requestTimeout : Nat

/-- The default configuration of `getConfig` with no environment
overrides. -/
def defaultConfig : Config :=
  { petstoreApiBase := "https://petstore3.swagger.io"
    openApiSpecUrl := "https://petstore3.swagger.io/api/v3/openapi.json"
    cacheTTL := 300000
    maxRetries := 3
    retryDelay := 1000
    requestTimeout := 30000 }

/-- The errors thrown inside `ToolExecutor`, carrying the data interpolated
into each message. -/
inductive FailCause where
  | missingParams (names : List String)
  | unreplacedTokens (tokens : List String)
  | transport (e : HttpError)
deriving Repr

/-- The error `execute` rethrows: `Failed to execute ${tool.name}:
${message}`. -/
inductive ExecError where
  | failed (tool : String) (cause : FailCause)
deriving Repr

/-- The `ApiResponse` shape returned to callers. -/
structure ApiResponse where
  status : Nat
  statusText : String
  headers : List (String × Value)
  data : Value
deriving Repr

/-- The request assembled by `buildRequest`: URL, query parameters, headers
and optional body. -/
structure BuiltRequest where
  url : String
  params : List (String × Value)
  headers : List (String × Value)
  data : Option Value
deriving Repr

/-- The names of required parameters with no corresponding argument. -/
def missingRequired (tool : ApiTool) (args : List (String × Value)) :
    List String :=
  (tool.parameters.filter
    (fun p => p.required && (argOf args p.name == Value.undefined))).map
    (fun p => p.name)

/-- One iteration of the `tool.parameters.forEach` loop of `buildRequest`:
given the parameter and its supplied argument value, update the request
under construction (skip when the value is `undefined`). -/
def requestStep (st : BuiltRequest) (p : ToolParameter) (v : Value) :
    BuiltRequest :=
  if v == Value.undefined then st
  else match p.location with
    | "path" =>
      { st with url := (replaceFirst st.url ("\x7b" ++ p.name ++ "\x7d")
          (encodeURIComponent (jsToString v))) }
    | "query" => { st with params := recordSet st.params p.name v }
    | "header" => { st with headers := recordSet st.headers p.name v }
    | "body" => { st with data := some v }
    | _ => st

/-- `ToolExecutor.buildRequest`: base URL + `/api/v3` + path template;
fail naming *all* missing required parameters; substitute/collect each
supplied parameter by location; then fail if any `{token}` remains in the
URL. -/
def buildRequest (cfg : Config) (tool : ApiTool)
    (args : List (String × Value)) : Except FailCause BuiltRequest :=
  let url₀ := cfg.petstoreApiBase ++ "/api/v3" ++ tool.path
  let headers₀ := [("Accept", Value.str "application/json"),
                   ("Content-Type", Value.str "application/json")]
  let missing := missingRequired tool args
  if missing ≠ [] then .error (.missingParams missing)
  else
    let st := tool.parameters.foldl
      (fun st p => requestStep st p (argOf args p.name))
      { url := url₀, params := [], headers := headers₀, data := none }
    let unreplaced := findTokens st.url.data
    if unreplaced ≠ [] then .error (.unreplacedTokens unreplaced)
    else .ok st

/-- One iteration of the `reduce` in `buildCacheKey`: add the supplied
argument value under the parameter's name, skipping `undefined`. -/
def cacheKeyStep (acc : List (String × Value)) (p : ToolParameter)
    (v : Value) : List (String × Value) :=
  if v == Value.undefined then acc else recordSet acc p.name v

/-- `ToolExecutor.buildCacheKey`: `null` for non-GET tools; otherwise the
tool name and the JSON serialization of the supplied non-header arguments
(headers only when literally named `authorization`, case-insensitively). -/
def buildCacheKey (tool : ApiTool) (args : List (String × Value)) :
    Option String :=
  if tool.method ≠ "get" then none
  else
    let relevant := tool.parameters.filter
      (fun p => decide (p.location ≠ "header") ||
        p.name.toLower == "authorization")
    let relevantArgs := relevant.foldl
      (fun acc p => cacheKeyStep acc p (argOf args p.name)) []
    some (tool.name ++ ":" ++ jsonStringify (.obj relevantArgs))

/-- The cache-check step at the top of `ToolExecutor.execute`: for a GET
tool look the fingerprint up (this is the source's
`if (tool.method === 'get' && cacheKey) { const cached = this.cache.get(cacheKey); ... }`);
returns what was observed and the cache after the read. -/
def cacheCheck (tool : ApiTool) (args : List (String × Value))
    (cache : CacheState ApiResponse) (now : Nat) :
    Option ApiResponse × CacheState ApiResponse :=
  if tool.method == "get" then
    match buildCacheKey tool args with
    | some k => CacheState.get cache k now
    | none => (none, cache)
  else (none, cache)

/-- The cache-store step of `ToolExecutor.execute`:
`if (tool.method === 'get' && response.status >= 200 && response.status < 300 && cacheKey)`
store the response under the fingerprint with the default TTL. -/
def cacheStore (tool : ApiTool) (args : List (String × Value))
    (resp : ApiResponse) (c : CacheState ApiResponse) (now : Nat) :
    CacheState ApiResponse :=
  if tool.method == "get" ∧ 200 ≤ resp.status ∧ resp.status < 300 then
    match buildCacheKey tool args with
    | some k => CacheState.set c k resp none now
    | none => c
  else c

/-- `ToolExecutor.execute` at time `now`, with the HTTP transport
abstracted as `dispatch` (the source calls `httpClient.request` with
`validateStatus: () => true`, so any received response resolves and only
transport-level failures reject).  Returns the result, the cache after the
call, and the number of network requests issued (0 or 1).  Errors thrown
inside the `try` are rethrown as `Failed to execute ...`, modelled by the
`ExecError.failed` wrapper. -/
def execute (cfg : Config) (tool : ApiTool) (args : List (String × Value))
    (cache : CacheState ApiResponse) (now : Nat)
    (dispatch : BuiltRequest → Except HttpError ApiResponse) :
    Except ExecError ApiResponse × CacheState ApiResponse × Nat :=
  match cacheCheck tool args cache now with
  | (some cached, c₁) => (.ok cached, c₁, 0)
  | (none, c₁) =>
    match buildRequest cfg tool args with
    | .error cause => (.error (.failed tool.name cause), c₁, 0)
    | .ok req =>
      match dispatch req with
      | .error he => (.error (.failed tool.name (.transport he)), c₁, 1)
      | .ok resp => (.ok resp, cacheStore tool args resp c₁ now, 1)

/-- The pipeline stages of one `execute` call, in source order. -/
inductive StepEvent where
  | cacheCheck
  | validateArgs
  | buildStep
  | dispatchStep
  | cacheStore
deriving Repr, DecidableEq

/-- The cache-check event of a call's trace: present exactly when the
source's `if (tool.method === 'get' && cacheKey)` guard holds. -/
def traceCheckEvents (tool : ApiTool) (args : List (String × Value)) :
    List StepEvent :=
  if tool.method == "get" ∧ (buildCacheKey tool args).isSome then
    [StepEvent.cacheCheck]
  else []

/-- The ordered list of pipeline stages one `execute` call performs:
the cache lookup (GET only), then the required-parameter validation and
the template substitution inside `buildRequest`, then dispatch, then the
conditional cache store.  Mirrors `execute` stage for stage. -/
def executeTrace (cfg : Config) (tool : ApiTool)
    (args : List (String × Value)) (cache : CacheState ApiResponse)
    (now : Nat) (dispatch : BuiltRequest → Except HttpError ApiResponse) :
    List StepEvent :=
  match (cacheCheck tool args cache now).1 with
  | some _ => traceCheckEvents tool args
  | none =>
    if missingRequired tool args ≠ [] then
      traceCheckEvents tool args ++ [.validateArgs]
    else
      match buildRequest cfg tool args with
      | .error _ => traceCheckEvents tool args ++ [.validateArgs, .buildStep]
      | .ok req =>
        match dispatch req with
        | .error _ =>
          traceCheckEvents tool args ++
            [.validateArgs, .buildStep, .dispatchStep]
        | .ok resp =>
          if tool.method == "get" ∧ 200 ≤ resp.status ∧
              resp.status < 300 ∧ (buildCacheKey tool args).isSome then
            traceCheckEvents tool args ++
              [.validateArgs, .buildStep, .dispatchStep, .cacheStore]
          else
            traceCheckEvents tool args ++
              [.validateArgs, .buildStep, .dispatchStep]

/-! ### Statement-level definitions -/

/-- What the cache lookup of an `execute` call observes: the cached
response under this call's fingerprint, `none` for non-GET tools or on a
miss. -/
def cacheProbe (tool : ApiTool) (args : List (String × Value))
    (cache : CacheState ApiResponse) (now : Nat) : Option ApiResponse :=
  match buildCacheKey tool args with
  | some k => (CacheState.get cache k now).1
  | none => none

/-- The retry condition of the specification, on the wire outcome of one
attempt: no response was received at all, or the response status lies in
`[500, 600)`. -/
def noResponseOr5xx : AttemptOutcome → Bool
  | .netErr => true
  | .resp s => decide (500 ≤ s) && decide (s < 600)

/-- Whether the `i`-th attempt of the retry loop, if reached, errors and is
retried: its outcome throws under `validateStatus` and `shouldRetry`
accepts the error at index `i`. -/
def retryStep (validateStatus : Nat → Bool) (backend : Nat → AttemptOutcome)
    (maxRetries i : Nat) : Bool :=
  match attemptResult validateStatus (backend i) with
  | .ok _ => false
  | .error e => shouldRetry maxRetries e i

/-- A concrete specification document holding exactly one operation,
`GET /pet/{id}` with a single required path parameter `id`. -/
def petSpecParam : SpecParam :=
  { name := "id", required := some true,
    schema := some (Schema.mk { type := some "integer" } none none),
    location := "path" }

def petSpecOp : SpecOperation :=
  { operationId := some "getPetById", parameters := [.inline petSpecParam] }

def petSpecPathItem : SpecPathItem := { get := some petSpecOp }

def petSpecDoc : OpenAPIDoc :=
  { paths := [("/pet/\x7bid\x7d", some petSpecPathItem)] }

/-- The single tool the catalog builder derives from `petSpecDoc`. -/
def petTool : ApiTool :=
  (createToolFromOperation petSpecDoc "/pet/\x7bid\x7d" "get" petSpecOp).getD
    ⟨"", "", "", "", []⟩

/-! ## Supporting lemmas -/

section CacheLemmas

variable {T : Type}

theorem lookup_eraseKey (l : List (String × α)) (key : String) :
    (l.filter (fun p => p.1 ≠ key)).lookup key = none := by
  induction l with
  | nil => rfl
  | cons hd tl ih =>
    obtain ⟨k, v⟩ := hd
    by_cases h : k = key
    · simpa [List.filter_cons, h] using ih
    · have hne : (key == k) = false :=
        beq_eq_false_iff_ne.mpr (fun hh => h hh.symm)
      simpa [List.filter_cons, h, List.lookup, hne] using ih

theorem CacheState.get_of_absent (c : CacheState T) (key : String)
    (now : Nat) (h : c.lookup key = none) : c.get key now = (none, c) := by
  have h' : c.entries.lookup key = none := h
  rw [CacheState.get, h']

theorem CacheState.get_of_expired (c : CacheState T) (key : String)
    (now : Nat) (e : CacheEntry T) (h : c.lookup key = some e)
    (hexp : now - e.timestamp > e.ttl) :
    c.get key now = (none, c.deleteKey key) := by
  have h' : c.entries.lookup key = some e := h
  rw [CacheState.get, h']
  simp [hexp]

theorem CacheState.get_of_live (c : CacheState T) (key : String)
    (now : Nat) (e : CacheEntry T) (h : c.lookup key = some e)
    (hlive : now - e.timestamp ≤ e.ttl) :
    c.get key now = (some e.data, c) := by
  have h' : c.entries.lookup key = some e := h
  rw [CacheState.get, h']
  have : ¬ (now - e.timestamp > e.ttl) := by omega
  simp [this]

theorem CacheState.lookup_deleteKey (c : CacheState T) (key : String) :
    (c.deleteKey key).lookup key = none :=
  lookup_eraseKey c.entries key

theorem CacheState.lookup_set_self (c : CacheState T) (key : String)
    (v : T) (ttl : Option Nat) (now : Nat) :
    (c.set key v ttl now).lookup key =
      some ⟨v, now, match ttl with
        | some t => if t = 0 then c.defaultTTL else t
        | none => c.defaultTTL⟩ := by
  simp [CacheState.set, CacheState.lookup, List.lookup]

theorem CacheState.get_defaultTTL (c : CacheState T) (key : String)
    (now : Nat) : (c.get key now).2.defaultTTL = c.defaultTTL := by
  rw [CacheState.get]
  rcases h : c.entries.lookup key with _ | e
  · rfl
  · dsimp only
    split <;> rfl

end CacheLemmas

/-! ## Claim C4 — cache misses, expiry and deletion -/

/-- C4 (counterexample): the claim reads the effective TTL as "the
per-entry TTL passed to `set` when given"; but `set` computes
`ttl || defaultTTL`, so a passed TTL of `0` is replaced by the default.
At `set("k", 42, ttl := 0)` at time 0 and `get("k")` at time 1, the claim
predicts a miss (`1 - 0 > 0`); the code returns a hit. -/
theorem cache_zero_ttl_counterexample :
    (1 - 0 > 0) ∧
    (((CacheState.set (CacheState.empty Nat 5) "k" 42 (some 0) 1000000000000).get
        "k" 1000000000001).1 = some 42) := by
  constructor
  · omega
  · rfl

/-- C4 (amended): for every key, `Cache.get` returns a miss both when no
entry exists and when the entry is expired, where an entry is expired
strictly when `now - insertedAt > ttl` — the per-entry TTL passed to `set`
when given *and nonzero*, else the configured default (a passed TTL of 0 is
treated as absent) — and a `get` that observes an expired entry deletes
that entry from the store. -/
theorem cache_get_expiry (T : Type) (c : CacheState T) (key : String)
    (now : Nat) :
    (c.lookup key = none → (c.get key now).1 = none)
    ∧ (∀ e, c.lookup key = some e → now - e.timestamp > e.ttl →
        (c.get key now).1 = none ∧ ((c.get key now).2.lookup key = none))
    ∧ (∀ e, c.lookup key = some e → now - e.timestamp ≤ e.ttl →
        c.get key now = (some e.data, c))
    ∧ (∀ (v : T) (ttl : Option Nat),
        (c.set key v ttl now).lookup key =
          some ⟨v, now, match ttl with
            | some t => if t = 0 then c.defaultTTL else t
            | none => c.defaultTTL⟩) := by
  refine ⟨?_, ?_, ?_, ?_⟩
  · intro h
    rw [CacheState.get_of_absent c key now h]
  · intro e h hexp
    rw [CacheState.get_of_expired c key now e h hexp]
    exact ⟨rfl, CacheState.lookup_deleteKey c key⟩
  · intro e h hlive
    exact CacheState.get_of_live c key now e h hlive
  · intro v ttl
    exact CacheState.lookup_set_self c key v ttl now

/-- Witness for C4: a fresh entry with the default TTL 10, inserted at
time 100, is alive at time 110, expired (and deleted) at time 111, and a
never-set key misses. -/
theorem cache_get_expiry_witness :
    (((CacheState.empty Nat 10).get "x" 0).1 = none)
    ∧ ((CacheState.set (CacheState.empty Nat 10) "k" 5 none 100).get "k" 110 =
        (some 5, CacheState.set (CacheState.empty Nat 10) "k" 5 none 100))
    ∧ (((CacheState.set (CacheState.empty Nat 10) "k" 5 none 100).get "k"
        111).1 = none) := by
  refine ⟨?_, ?_, ?_⟩
  · exact (cache_get_expiry Nat (CacheState.empty Nat 10) "x" 0).1 rfl
  · exact (cache_get_expiry Nat
      (CacheState.set (CacheState.empty Nat 10) "k" 5 none 100) "k" 110).2.2.1
      ⟨5, 100, 10⟩ rfl (by decide)
  · exact ((cache_get_expiry Nat
      (CacheState.set (CacheState.empty Nat 10) "k" 5 none 100) "k" 111).2.1
      ⟨5, 100, 10⟩ rfl (by decide)).1

/-! ## Supporting lemmas for the HTTP retry loop -/

theorem retryStep_default (backend : Nat → AttemptOutcome)
    (maxRetries i : Nat) :
    retryStep defaultValidateStatus backend maxRetries i =
      (decide (i < maxRetries) && noResponseOr5xx (backend i)) := by
  cases hb : backend i with
  | netErr =>
    simp [retryStep, attemptResult, shouldRetry, noResponseOr5xx, hb]
  | resp s =>
    rw [retryStep, hb]
    by_cases h : defaultValidateStatus s = true
    · have h5 : ¬ (500 ≤ s) := by
        simp [defaultValidateStatus] at h
        omega
      simp [attemptResult, h, noResponseOr5xx, h5]
    · simp only [attemptResult, h, if_neg h]
      simp [shouldRetry, noResponseOr5xx]

/-- One unfolding of the retry loop with the recursive result's components
spelled out. -/
theorem requestLoop_succ (vs : Nat → Bool) (backend : Nat → AttemptOutcome)
    (maxRetries rd attempt f : Nat) (le : Option HttpError) :
    requestLoop vs backend maxRetries rd attempt (f + 1) le =
      match attemptResult vs (backend attempt) with
      | .ok s => (.ok s, 1, [])
      | .error e =>
        if shouldRetry maxRetries e attempt then
          ((requestLoop vs backend maxRetries rd (attempt + 1) f
              (some e)).1,
           (requestLoop vs backend maxRetries rd (attempt + 1) f
              (some e)).2.1 + 1,
           rd * 2 ^ attempt ::
             (requestLoop vs backend maxRetries rd (attempt + 1) f
               (some e)).2.2)
        else (.error e, 1, []) := rfl

theorem requestLoop_calls_pos (vs : Nat → Bool)
    (backend : Nat → AttemptOutcome) (maxRetries rd : Nat) :
    ∀ fuel attempt le, 0 < fuel →
      0 < (requestLoop vs backend maxRetries rd attempt fuel le).2.1 := by
  intro fuel attempt le hf
  match fuel, hf with
  | f + 1, _ =>
    rw [requestLoop_succ]
    cases h : attemptResult vs (backend attempt) with
    | ok s => simp
    | error e =>
      by_cases hr : shouldRetry maxRetries e attempt = true <;> simp [hr]

theorem shouldRetry_lt (maxRetries : Nat) (e : HttpError) (attempt : Nat)
    (h : shouldRetry maxRetries e attempt = true) : attempt < maxRetries := by
  unfold shouldRetry at h
  have := (Bool.and_eq_true _ _).mp h
  simpa using this.1

theorem retryStep_of_ok {vs : Nat → Bool} {backend : Nat → AttemptOutcome}
    {maxRetries i s : Nat}
    (h : attemptResult vs (backend i) = .ok s) :
    retryStep vs backend maxRetries i = false := by
  unfold retryStep
  rw [h]

theorem retryStep_of_error {vs : Nat → Bool} {backend : Nat → AttemptOutcome}
    {maxRetries i : Nat} {e : HttpError}
    (h : attemptResult vs (backend i) = .error e) :
    retryStep vs backend maxRetries i = shouldRetry maxRetries e i := by
  unfold retryStep
  rw [h]

theorem requestLoop_retried_iff (backend : Nat → AttemptOutcome)
    (maxRetries rd : Nat) :
    ∀ fuel attempt le j, attempt + fuel = maxRetries + 1 →
      (j + 1 <
          (requestLoop defaultValidateStatus backend maxRetries rd attempt
            fuel le).2.1 ↔
        (j < (requestLoop defaultValidateStatus backend maxRetries rd attempt
            fuel le).2.1 ∧
          retryStep defaultValidateStatus backend maxRetries (attempt + j) =
            true)) := by
  intro fuel
  induction fuel with
  | zero =>
    intro attempt le j hinv
    simp [requestLoop]
  | succ f ih =>
    intro attempt le j hinv
    cases h : attemptResult defaultValidateStatus (backend attempt) with
    | ok s =>
      have hL : requestLoop defaultValidateStatus backend maxRetries rd
          attempt (f + 1) le = (.ok s, 1, []) := by
        rw [requestLoop_succ, h]
      rw [hL]
      dsimp only
      constructor
      · intro hj; omega
      · rintro ⟨hj, hstep⟩
        have hj0 : j = 0 := by omega
        subst hj0
        rw [Nat.add_zero, retryStep_of_ok h] at hstep
        exact absurd hstep (by simp)
    | error e =>
      by_cases hr : shouldRetry maxRetries e attempt = true
      · have hL : requestLoop defaultValidateStatus backend maxRetries rd
            attempt (f + 1) le =
            ((requestLoop defaultValidateStatus backend maxRetries rd
                (attempt + 1) f (some e)).1,
             (requestLoop defaultValidateStatus backend maxRetries rd
                (attempt + 1) f (some e)).2.1 + 1,
             rd * 2 ^ attempt ::
               (requestLoop defaultValidateStatus backend maxRetries rd
                 (attempt + 1) f (some e)).2.2) := by
          rw [requestLoop_succ, h]
          simp [hr]
        rw [hL]
        dsimp only
        have hlt : attempt < maxRetries := shouldRetry_lt _ _ _ hr
        have hfpos : 0 < f := by omega
        have hcpos : 0 <
            (requestLoop defaultValidateStatus backend maxRetries rd
              (attempt + 1) f (some e)).2.1 :=
          requestLoop_calls_pos _ backend maxRetries rd f (attempt + 1)
            (some e) hfpos
        cases j with
        | zero =>
          constructor
          · intro _
            refine ⟨by omega, ?_⟩
            rw [Nat.add_zero, retryStep_of_error h]
            exact hr
          · intro _
            omega
        | succ j' =>
          have hiff := ih (attempt + 1) (some e) j' (by omega)
          have harith : attempt + 1 + j' = attempt + (j' + 1) := by omega
          rw [harith] at hiff
          constructor
          · intro hj
            have := hiff.mp (by omega)
            exact ⟨by omega, this.2⟩
          · rintro ⟨hj, hstep⟩
            have := hiff.mpr ⟨by omega, hstep⟩
            omega
      · have hL : requestLoop defaultValidateStatus backend maxRetries rd
            attempt (f + 1) le = (.error e, 1, []) := by
          rw [requestLoop_succ, h]
          simp [hr]
        rw [hL]
        dsimp only
        constructor
        · intro hj; omega
        · rintro ⟨hj, hstep⟩
          have hj0 : j = 0 := by omega
          subst hj0
          rw [Nat.add_zero, retryStep_of_error h] at hstep
          exact absurd hstep hr

theorem requestLoop_all503 (backend : Nat → AttemptOutcome)
    (maxRetries rd : Nat) (hb : ∀ i, backend i = .resp 503) :
    ∀ fuel attempt le, 0 < fuel → attempt + fuel = maxRetries + 1 →
      (requestLoop defaultValidateStatus backend maxRetries rd attempt fuel
          le).1 = .error (.httpStatus 503) ∧
      (requestLoop defaultValidateStatus backend maxRetries rd attempt fuel
          le).2.1 = fuel := by
  intro fuel
  induction fuel with
  | zero => intro attempt le h; omega
  | succ f ih =>
    intro attempt le _ hinv
    rw [requestLoop_succ, hb attempt]
    have hres : attemptResult defaultValidateStatus (.resp 503) =
        .error (.httpStatus 503) := by
      simp [attemptResult, defaultValidateStatus]
    rw [hres]
    by_cases hlast : attempt < maxRetries
    · have hr : shouldRetry maxRetries (.httpStatus 503) attempt = true := by
        simp [shouldRetry, hlast]
      simp only [hr, if_true]
      have hrec := ih (attempt + 1) (some (.httpStatus 503)) (by omega)
        (by omega)
      exact ⟨hrec.1, by rw [hrec.2]⟩
    · have hr : shouldRetry maxRetries (.httpStatus 503) attempt = false := by
        simp [shouldRetry]
        omega
      have hf : f = 0 := by omega
      subst hf
      simp [hr]

theorem requestLoop_delays (vs : Nat → Bool)
    (backend : Nat → AttemptOutcome) (maxRetries rd : Nat) :
    ∀ fuel attempt le k,
      k < (requestLoop vs backend maxRetries rd attempt fuel le).2.2.length →
      (requestLoop vs backend maxRetries rd attempt fuel le).2.2.get? k =
        some (rd * 2 ^ (attempt + k)) := by
  intro fuel
  induction fuel with
  | zero =>
    intro attempt le k h
    simp [requestLoop] at h
  | succ f ih =>
    intro attempt le k h
    cases hres : attemptResult vs (backend attempt) with
    | ok s =>
      have hL : requestLoop vs backend maxRetries rd attempt (f + 1) le =
          (.ok s, 1, []) := by
        rw [requestLoop_succ, hres]
      rw [hL] at h
      simp at h
    | error e =>
      by_cases hr : shouldRetry maxRetries e attempt = true
      · have hL : requestLoop vs backend maxRetries rd attempt (f + 1) le =
            ((requestLoop vs backend maxRetries rd (attempt + 1) f
                (some e)).1,
             (requestLoop vs backend maxRetries rd (attempt + 1) f
                (some e)).2.1 + 1,
             rd * 2 ^ attempt ::
               (requestLoop vs backend maxRetries rd (attempt + 1) f
                 (some e)).2.2) := by
          rw [requestLoop_succ, hres]
          simp [hr]
        rw [hL] at h ⊢
        dsimp only at h ⊢
        cases k with
        | zero => simp
        | succ k' =>
          rw [List.get?_cons_succ]
          have hk' : k' <
              (requestLoop vs backend maxRetries rd (attempt + 1) f
                (some e)).2.2.length := by
            simpa using h
          rw [ih (attempt + 1) (some e) k' hk']
          have harith : attempt + 1 + k' = attempt + (k' + 1) := by omega
          rw [harith]
      · have hL : requestLoop vs backend maxRetries rd attempt (f + 1) le =
            (.error e, 1, []) := by
          rw [requestLoop_succ, hres]
          simp [hr]
        rw [hL] at h
        simp at h

/-! ## Claim C2 — retry predicate and retry bounds -/

/-- C2: under the client's default `validateStatus`, attempt `i` of
`HttpClient.request` is retried (a further attempt follows it) iff it
occurred, `i < maxRetries`, and its wire outcome was a network error or a
response with status in `[500, 600)`; consequently a backend that always
returns 503 is called exactly `maxRetries + 1` times and the last error
surfaces, while a backend returning 404 on the first attempt is called
exactly once. -/
theorem http_retry_policy (backend : Nat → AttemptOutcome)
    (maxRetries retryDelay : Nat) :
    (∀ i, i + 1 <
        (request defaultValidateStatus backend maxRetries retryDelay).2.1 ↔
      (i < (request defaultValidateStatus backend maxRetries retryDelay).2.1 ∧
        i < maxRetries ∧ noResponseOr5xx (backend i) = true))
    ∧ ((∀ i, backend i = .resp 503) →
        (request defaultValidateStatus backend maxRetries retryDelay).2.1 =
          maxRetries + 1 ∧
        (request defaultValidateStatus backend maxRetries retryDelay).1 =
          .error (.httpStatus 503))
    ∧ ((backend 0 = .resp 404) →
        (request defaultValidateStatus backend maxRetries retryDelay).2.1 =
          1) := by
  refine ⟨?_, ?_, ?_⟩
  · intro i
    have h0 := requestLoop_retried_iff backend maxRetries retryDelay
      (maxRetries + 1) 0 none i (by omega)
    rw [Nat.zero_add, retryStep_default] at h0
    unfold request
    rw [h0]
    simp [Bool.and_eq_true]
  · intro hb
    have h1 := requestLoop_all503 backend maxRetries retryDelay hb
      (maxRetries + 1) 0 none (by omega) (by omega)
    exact ⟨h1.2, h1.1⟩
  · intro h404
    have hres : attemptResult defaultValidateStatus (backend 0) =
        .error (.httpStatus 404) := by
      rw [h404]
      simp [attemptResult, defaultValidateStatus]
    have hr : shouldRetry maxRetries (.httpStatus 404) 0 = false := by
      simp [shouldRetry]
    unfold request
    rw [requestLoop_succ, hres]
    simp [hr]

/-- Witness for C2: with `maxRetries = 2`, an always-503 backend is called
3 times and the 503 error surfaces; a 404 backend is called once. -/
theorem http_retry_policy_witness :
    ((request defaultValidateStatus (fun _ => .resp 503) 2 5).2.1 = 3 ∧
     (request defaultValidateStatus (fun _ => .resp 503) 2 5).1 =
       .error (.httpStatus 503))
    ∧ (request defaultValidateStatus (fun _ => .resp 404) 2 5).2.1 = 1 :=
  ⟨(http_retry_policy (fun _ => .resp 503) 2 5).2.1 (fun _ => rfl),
   (http_retry_policy (fun _ => .resp 404) 2 5).2.2 rfl⟩

/-! ## Claim C9 — exponential backoff -/

/-- C9: in the retry loop, the delay waited before retry attempt number
`k` (zero-indexed over the retries that happen) is exactly
`retryDelay * 2 ^ k`. -/
theorem http_backoff_delay (vs : Nat → Bool)
    (backend : Nat → AttemptOutcome) (maxRetries retryDelay k : Nat)
    (h : k < (request vs backend maxRetries retryDelay).2.2.length) :
    (request vs backend maxRetries retryDelay).2.2.get? k =
      some (retryDelay * 2 ^ k) := by
  have h1 := requestLoop_delays vs backend maxRetries retryDelay
    (maxRetries + 1) 0 none k h
  simpa using h1

/-- Witness for C9: an always-503 backend with `maxRetries = 2` and base
delay 7 waits 7 before the first retry and 14 before the second. -/
theorem http_backoff_delay_witness :
    (request defaultValidateStatus (fun _ => .resp 503) 2 7).2.2.get? 0 =
      some 7 ∧
    (request defaultValidateStatus (fun _ => .resp 503) 2 7).2.2.get? 1 =
      some 14 := by
  constructor
  · have h1 := http_backoff_delay defaultValidateStatus (fun _ => .resp 503)
      2 7 0 (by decide)
    rw [h1]
    norm_num
  · have h1 := http_backoff_delay defaultValidateStatus (fun _ => .resp 503)
      2 7 1 (by decide)
    rw [h1]
    norm_num

/-! ## Supporting lemmas for the schema validator -/

theorem except_ok_bind {ε α β : Type} (a : α) (f : α → Except ε β) :
    (Except.ok a >>= f) = f a := rfl

theorem except_error_bind {ε α β : Type} (e : ε) (f : α → Except ε β) :
    ((Except.error e : Except ε α) >>= f) = .error e := rfl

theorem exists_error_bind (x : Except VError Unit)
    (f : Unit → Except VError Unit) (hf : ∃ e, f () = .error e) :
    ∃ e, (x >>= f) = .error e := by
  cases x with
  | error e => exact ⟨e, rfl⟩
  | ok u =>
    cases u
    rw [except_ok_bind]
    exact hf

/-! ## Claim C5 — absent/null values against a schema -/

/-- C5: for every non-`$ref` schema `s` and parameter name, validating an
absent (`undefined`) or `null` value passes when `s.nullable` is `true` or
the schema's `required` field is JS-falsy (the field is not contextually
required), and otherwise fails with an error naming the parameter as
required. -/
theorem validate_absent_or_null (rt : String → String → Bool) (s : Schema)
    (v : Value) (paramName : String)
    (href : s.core.ref = none) (hv : v = .undefined ∨ v = .null) :
    ((s.core.nullable = true ∨ s.core.required = none) →
        validate rt s v paramName = .ok ())
    ∧ (¬ (s.core.nullable = true ∨ s.core.required = none) →
        validate rt s v paramName = .error (.required paramName)) := by
  constructor <;> intro h <;> rcases hv with rfl | rfl <;>
    (unfold validate; rw [href]; simp [h, isNullish])

/-- Witness for C5: a schema with a truthy `required` field and no
`nullable` rejects `undefined` naming the parameter; a nullable schema
accepts `null`. -/
theorem validate_absent_or_null_witness :
    validate (fun _ _ => false)
        (Schema.mk { required := some ["x"] } none none) .undefined "p" =
      .error (.required "p")
    ∧ validate (fun _ _ => false)
        (Schema.mk { nullable := true } none none) .null "p" = .ok () := by
  constructor
  · exact (validate_absent_or_null (fun _ _ => false)
      (Schema.mk { required := some ["x"] } none none) .undefined "p" rfl
      (Or.inl rfl)).2 (by simp [Schema.core])
  · exact (validate_absent_or_null (fun _ _ => false)
      (Schema.mk { nullable := true } none none) .null "p" rfl
      (Or.inr rfl)).1 (by simp [Schema.core])

/-! ## Claim C8 — pattern violations and additionalProperties -/

/-- C8: a string value that fails the schema's (nonempty) pattern — and
passes the preceding enum stage — is rejected with an error carrying both
the parameter name and the pattern; and for an object schema with
`additionalProperties === false`, any value containing a key absent from
the schema's properties is rejected. -/
theorem validate_pattern_and_additional_props :
    (∀ (rt : String → String → Bool) (s : Schema)
      (sv paramName pat : String),
      s.core.ref = none → s.core.type = some "string" →
      s.core.pattern = some pat → pat ≠ "" → rt pat sv = false →
      (∀ l, s.core.enum = some l → includesStr l sv = true) →
      validate rt s (.str sv) paramName =
        .error (.patternMismatch paramName pat))
    ∧ (∀ (rt : String → String → Bool) (s : Schema)
      (fields : List (String × Value)) (paramName : String),
      s.core.ref = none → s.core.type = some "object" →
      s.core.additionalProperties = some false →
      (∃ k, k ∈ fields.map Prod.fst ∧ ¬ (definedPropsOf s).contains k) →
      ∃ err, validate rt s (.obj fields) paramName = .error err) := by
  constructor
  · intro rt s sv paramName pat href htype hpat hne hrt henum
    unfold validate
    rw [href]
    simp only [isNullish, htype, Option.isSome_none, Bool.false_eq_true,
      if_false, if_true, if_pos rfl]
    unfold validateString
    have hen : checkEnum s sv paramName = .ok () := by
      unfold checkEnum
      rcases he : s.core.enum with _ | l
      · rfl
      · have := henum l he
        simp [this]
    have hpt : checkPattern rt s sv paramName =
        .error (.patternMismatch paramName pat) := by
      unfold checkPattern
      rw [hpat]
      simp [hne, hrt]
    rw [hen, except_ok_bind, hpt, except_error_bind]
  · intro rt s fields paramName href htype haddp hkey
    have hextra : extraPropsOf fields s ≠ [] := by
      obtain ⟨k, hk, hnc⟩ := hkey
      have : k ∈ extraPropsOf fields s := by
        rw [extraPropsOf, List.mem_filter]
        exact ⟨hk, by simpa using hnc⟩
      exact List.ne_nil_of_mem this
    have hca : checkAdditionalProps fields s paramName =
        .error (.unexpectedProps paramName (extraPropsOf fields s)) := by
      unfold checkAdditionalProps
      rw [haddp]
      simp [hextra]
    have hstring : ¬ (s.core.type = some "string") := by simp [htype]
    have hnum : ¬ (s.core.type = some "number" ∨
        s.core.type = some "integer") := by simp [htype]
    have hbool : ¬ (s.core.type = some "boolean") := by simp [htype]
    have harr : ¬ (s.core.type = some "array") := by simp [htype]
    unfold validate
    rw [href]
    simp only [isNullish, Option.isSome_none, Bool.false_eq_true, if_false]
    rw [if_neg hstring, if_neg hnum, if_neg hbool, if_neg harr,
      if_pos htype]
    unfold validateObject
    apply exists_error_bind
    apply exists_error_bind
    exact ⟨_, hca⟩

/-- Witness for C8: under a regex oracle rejecting everything, a string
schema with pattern `abc` rejects `"x"` naming parameter and pattern; an
object schema with `additionalProperties: false` and no declared
properties rejects a value with key `x`. -/
theorem validate_pattern_and_additional_props_witness :
    validate (fun _ _ => false)
        (Schema.mk { type := some "string", pattern := some "abc" } none
          none) (.str "x") "p" =
      .error (.patternMismatch "p" "abc")
    ∧ ∃ err, validate (fun _ _ => false)
        (Schema.mk
          { type := some "object", additionalProperties := some false }
          none none)
        (.obj [("x", .null)]) "p" = .error err := by
  constructor
  · exact validate_pattern_and_additional_props.1 (fun _ _ => false)
      (Schema.mk { type := some "string", pattern := some "abc" } none none)
      "x" "p" "abc" rfl rfl rfl (by decide) rfl
      (fun l hl => by simp [Schema.core] at hl)
  · exact validate_pattern_and_additional_props.2 (fun _ _ => false)
      (Schema.mk
        { type := some "object", additionalProperties := some false }
        none none)
      [("x", .null)] "p" rfl rfl rfl
      ⟨"x", by simp, by simp [definedPropsOf, Schema.properties]⟩

/-! ## Claim C7 — specification round trip -/

/-- C7: a specification containing a single `GET /pet/{id}` operation
yields exactly one tool in the catalog; executing it with `{id: 7}` builds
the literal URL `.../api/v3/pet/7` and the unreplaced-token scan of that
URL finds nothing. -/
theorem pet_spec_roundtrip :
    (generateToolsFromSpec petSpecDoc).length = 1
    ∧ generateToolsFromSpec petSpecDoc = [("getPetById", petTool)]
    ∧ (buildRequest defaultConfig petTool [("id", .num 7)]).map
        (fun r => r.url) =
      .ok "https://petstore3.swagger.io/api/v3/pet/7"
    ∧ findTokens "https://petstore3.swagger.io/api/v3/pet/7".data = [] :=
  ⟨rfl, rfl, rfl, rfl⟩

/-! ## Supporting lemmas for the executor -/

theorem value_beq_undefined_iff (v : Value) :
    (v == Value.undefined) = true ↔ v = .undefined := by
  cases v <;> simp [BEq.beq, Value.beq]

/-- When the required check fails, `buildRequest` throws the
missing-parameters error naming all missing names. -/
theorem buildRequest_missing (cfg : Config) (tool : ApiTool)
    (args : List (String × Value)) (h : missingRequired tool args ≠ []) :
    buildRequest cfg tool args =
      .error (.missingParams (missingRequired tool args)) := by
  unfold buildRequest
  simp [h]

/-- What the cache-check step observes is the cache probe. -/
theorem cacheCheck_fst (tool : ApiTool) (args : List (String × Value))
    (cache : CacheState ApiResponse) (now : Nat) :
    (cacheCheck tool args cache now).1 = cacheProbe tool args cache now := by
  unfold cacheCheck cacheProbe
  by_cases hm : (tool.method == "get") = true
  · rw [if_pos hm]
    cases hk : buildCacheKey tool args with
    | none => rfl
    | some k => rfl
  · rw [if_neg hm]
    have hne : tool.method ≠ "get" := by simpa using hm
    rw [buildCacheKey, if_pos hne]

/-! ## Claim C1 — missing required parameters -/

/-- C1: when at least one required parameter has no corresponding argument
(and this call's fingerprint is not already cached — the only state in
which the GET cache path could intervene), `execute` fails with an error
carrying exactly the set of all missing required parameter names, and no
HTTP request is issued. -/
theorem execute_missing_required (cfg : Config) (tool : ApiTool)
    (args : List (String × Value)) (cache : CacheState ApiResponse)
    (now : Nat) (dispatch : BuiltRequest → Except HttpError ApiResponse)
    (hprobe : cacheProbe tool args cache now = none)
    (hmiss : missingRequired tool args ≠ []) :
    (execute cfg tool args cache now dispatch).1 =
      .error (.failed tool.name
        (.missingParams (missingRequired tool args)))
    ∧ (execute cfg tool args cache now dispatch).2.2 = 0
    ∧ (∀ n, n ∈ missingRequired tool args ↔
        ∃ p ∈ tool.parameters, p.name = n ∧ p.required = true ∧
          argOf args n = .undefined) := by
  have hchk : cacheCheck tool args cache now =
      (none, (cacheCheck tool args cache now).2) := by
    have h1 := cacheCheck_fst tool args cache now
    rw [hprobe] at h1
    exact Prod.ext h1 rfl
  refine ⟨?_, ?_, ?_⟩
  · unfold execute
    rw [hchk, buildRequest_missing cfg tool args hmiss]
  · unfold execute
    rw [hchk, buildRequest_missing cfg tool args hmiss]
  · intro n
    unfold missingRequired
    simp only [List.mem_map, List.mem_filter]
    constructor
    · rintro ⟨p, ⟨hp, hcond⟩, rfl⟩
      rw [Bool.and_eq_true] at hcond
      exact ⟨p, hp, rfl, hcond.1, (value_beq_undefined_iff _).mp hcond.2⟩
    · rintro ⟨p, hp, hname, hreq, habsent⟩
      refine ⟨p, ⟨hp, ?_⟩, hname⟩
      rw [Bool.and_eq_true]
      subst hname
      exact ⟨hreq, (value_beq_undefined_iff _).mpr habsent⟩

/-- Witness for C1: a GET tool with required path parameter `id`, called
with no arguments against an empty cache, fails naming exactly `id` with
zero network requests. -/
theorem execute_missing_required_witness :
    (execute defaultConfig petTool [] (CacheState.empty ApiResponse) 0
        (fun _ => .error .network)).1 =
      .error (.failed "getPetById" (.missingParams ["id"]))
    ∧ (execute defaultConfig petTool [] (CacheState.empty ApiResponse) 0
        (fun _ => .error .network)).2.2 = 0 := by
  have h := execute_missing_required defaultConfig petTool []
    (CacheState.empty ApiResponse) 0 (fun _ => .error .network) rfl
    (by decide)
  exact ⟨h.1, h.2.1⟩

/-! ## Claim C10 — undeclared arguments have no effect -/

theorem foldl_argOf_congr {β : Type} (step : β → ToolParameter → Value → β)
    (l : List ToolParameter) (args₁ args₂ : List (String × Value))
    (h : ∀ p ∈ l, argOf args₁ p.name = argOf args₂ p.name) (b : β) :
    l.foldl (fun st p => step st p (argOf args₁ p.name)) b =
      l.foldl (fun st p => step st p (argOf args₂ p.name)) b := by
  induction l generalizing b with
  | nil => rfl
  | cons hd tl ih =>
    simp only [List.foldl_cons]
    rw [h hd (List.mem_cons_self hd tl)]
    exact ih (fun p hp => h p (List.mem_cons_of_mem hd hp)) _

theorem missingRequired_congr (tool : ApiTool)
    (args₁ args₂ : List (String × Value))
    (h : ∀ p ∈ tool.parameters, argOf args₁ p.name = argOf args₂ p.name) :
    missingRequired tool args₁ = missingRequired tool args₂ := by
  unfold missingRequired
  congr 1
  apply List.filter_congr
  intro p hp
  rw [h p hp]

/-- C10: two argument maps agreeing on all of the tool's declared
parameter names produce the identical built request, the identical cache
fingerprint, and the identical `execute` behaviour — argument entries
whose names are not declared parameters have no effect. -/
theorem execute_ignores_undeclared (cfg : Config) (tool : ApiTool)
    (args₁ args₂ : List (String × Value))
    (h : ∀ p ∈ tool.parameters, argOf args₁ p.name = argOf args₂ p.name) :
    buildRequest cfg tool args₁ = buildRequest cfg tool args₂
    ∧ buildCacheKey tool args₁ = buildCacheKey tool args₂
    ∧ ∀ cache now dispatch,
        execute cfg tool args₁ cache now dispatch =
          execute cfg tool args₂ cache now dispatch := by
  have hm := missingRequired_congr tool args₁ args₂ h
  have hb : buildRequest cfg tool args₁ = buildRequest cfg tool args₂ := by
    unfold buildRequest
    dsimp only
    rw [hm, foldl_argOf_congr requestStep tool.parameters args₁ args₂ h]
  have hk : buildCacheKey tool args₁ = buildCacheKey tool args₂ := by
    unfold buildCacheKey
    by_cases hne : tool.method ≠ "get"
    · rw [if_pos hne, if_pos hne]
    · rw [if_neg hne, if_neg hne]
      dsimp only
      have hsub : ∀ p ∈ tool.parameters.filter
          (fun p => decide (p.location ≠ "header") ||
            p.name.toLower == "authorization"),
          argOf args₁ p.name = argOf args₂ p.name := by
        intro p hp
        exact h p (List.mem_of_mem_filter hp)
      rw [foldl_argOf_congr cacheKeyStep _ args₁ args₂ hsub]
  refine ⟨hb, hk, ?_⟩
  intro cache now dispatch
  have hcc : cacheCheck tool args₁ cache now =
      cacheCheck tool args₂ cache now := by
    unfold cacheCheck
    rw [hk]
  have hcs : ∀ resp c, cacheStore tool args₁ resp c now =
      cacheStore tool args₂ resp c now := by
    intro resp c
    unfold cacheStore
    rw [hk]
  unfold execute
  rw [hcc, hb]
  simp only [hcs]

/-- Witness for C10: adding an undeclared argument `junk` to a call of the
`GET /pet/{id}` tool changes neither the built request nor the cache
fingerprint. -/
theorem execute_ignores_undeclared_witness :
    buildRequest defaultConfig petTool
        [("id", .num 7), ("junk", .str "z")] =
      buildRequest defaultConfig petTool [("id", .num 7)]
    ∧ buildCacheKey petTool [("id", .num 7), ("junk", .str "z")] =
      buildCacheKey petTool [("id", .num 7)] := by
  have h := execute_ignores_undeclared defaultConfig petTool
    [("id", .num 7), ("junk", .str "z")] [("id", .num 7)]
    (by
      intro p hp
      have hl : petTool.parameters =
          [⟨"id", none, true, "integer", "path",
            some (Schema.mk { type := some "integer" } none none)⟩] := rfl
      rw [hl, List.mem_singleton] at hp
      subst hp
      rfl)
  exact ⟨h.1, h.2.1⟩

/-! ## Claim C6 — GET idempotence through the cache -/

/-- C6: for a cache-eligible GET call whose fingerprint is not yet cached,
a first `execute` that receives a 2xx response issues one network request
and stores the response under the fingerprint with the default TTL, and a
second `execute` with identical arguments within the TTL window returns
that cached response with zero network requests — so the two calls issue
at most one network request in total. -/
theorem execute_get_idempotent (cfg : Config) (tool : ApiTool)
    (args : List (String × Value)) (cache : CacheState ApiResponse)
    (now₁ now₂ : Nat) (k : String) (req : BuiltRequest) (resp : ApiResponse)
    (dispatch₁ dispatch₂ : BuiltRequest → Except HttpError ApiResponse)
    (hm : tool.method = "get")
    (hk : buildCacheKey tool args = some k)
    (hmiss : (CacheState.get cache k now₁).1 = none)
    (hbuild : buildRequest cfg tool args = .ok req)
    (hd : dispatch₁ req = .ok resp)
    (h2xx : 200 ≤ resp.status ∧ resp.status < 300)
    (hwin : now₂ - now₁ ≤ cache.defaultTTL) :
    ∃ c', execute cfg tool args cache now₁ dispatch₁ = (.ok resp, c', 1)
      ∧ c'.lookup k = some ⟨resp, now₁, cache.defaultTTL⟩
      ∧ execute cfg tool args c' now₂ dispatch₂ = (.ok resp, c', 0) := by
  have hcc1 : cacheCheck tool args cache now₁ =
      (none, (CacheState.get cache k now₁).2) := by
    unfold cacheCheck
    rw [if_pos (by simp [hm]), hk]
    exact Prod.ext hmiss rfl
  have hc1ttl : (CacheState.get cache k now₁).2.defaultTTL =
      cache.defaultTTL := CacheState.get_defaultTTL cache k now₁
  have hcs : cacheStore tool args resp (CacheState.get cache k now₁).2 now₁ =
      CacheState.set (CacheState.get cache k now₁).2 k resp none now₁ := by
    unfold cacheStore
    rw [if_pos ⟨by simp [hm], h2xx.1, h2xx.2⟩, hk]
  have hex1 : execute cfg tool args cache now₁ dispatch₁ =
      (.ok resp,
       CacheState.set (CacheState.get cache k now₁).2 k resp none now₁,
       1) := by
    unfold execute
    rw [hcc1]
    dsimp only
    rw [hbuild]
    dsimp only
    rw [hd]
    dsimp only
    rw [hcs]
  have hlook : (CacheState.set (CacheState.get cache k now₁).2 k resp none
      now₁).lookup k = some ⟨resp, now₁, cache.defaultTTL⟩ := by
    rw [CacheState.lookup_set_self]
    rw [hc1ttl]
  have hcc2 : cacheCheck tool args
      (CacheState.set (CacheState.get cache k now₁).2 k resp none now₁)
      now₂ =
      (some resp,
       CacheState.set (CacheState.get cache k now₁).2 k resp none now₁) := by
    unfold cacheCheck
    rw [if_pos (by simp [hm]), hk]
    exact CacheState.get_of_live _ k now₂ ⟨resp, now₁, cache.defaultTTL⟩
      hlook hwin
  have hex2 : execute cfg tool args
      (CacheState.set (CacheState.get cache k now₁).2 k resp none now₁)
      now₂ dispatch₂ =
      (.ok resp,
       CacheState.set (CacheState.get cache k now₁).2 k resp none now₁,
       0) := by
    unfold execute
    rw [hcc2]
  exact ⟨_, hex1, hlook, hex2⟩

/-- Witness for C6: calling the `GET /pet/{id}` tool twice with `{id: 7}`
(fresh cache, times 10 and 20): the first call dispatches once and the
second returns the cached response without dispatching (its transport
would fail if consulted). -/
theorem execute_get_idempotent_witness :
    ∃ c', execute defaultConfig petTool [("id", .num 7)]
        (CacheState.empty ApiResponse) 10
        (fun _ => .ok ⟨200, "OK", [], .null⟩) =
      (.ok ⟨200, "OK", [], .null⟩, c', 1)
      ∧ execute defaultConfig petTool [("id", .num 7)] c' 20
          (fun _ => .error .network) =
        (.ok ⟨200, "OK", [], .null⟩, c', 0) := by
  obtain ⟨c', h1, _, h3⟩ := execute_get_idempotent defaultConfig petTool
    [("id", .num 7)] (CacheState.empty ApiResponse) 10 20
    "getPetById:\x7b\"id\":7\x7d"
    { url := "https://petstore3.swagger.io/api/v3/pet/7", params := [],
      headers := [("Accept", Value.str "application/json"),
        ("Content-Type", Value.str "application/json")], data := none }
    ⟨200, "OK", [], .null⟩
    (fun _ => .ok ⟨200, "OK", [], .null⟩) (fun _ => .error .network)
    rfl rfl rfl rfl rfl ⟨by norm_num, by norm_num⟩ (by decide)
  exact ⟨c', h1, h3⟩

/-! ## Claim C3 — pipeline order of one execute call -/

theorem buildCacheKey_isSome (tool : ApiTool)
    (args : List (String × Value)) (hm : tool.method = "get") :
    (buildCacheKey tool args).isSome := by
  unfold buildCacheKey
  rw [if_neg (by simp [hm])]
  simp

/-- C3 (counterexample): at a concrete happy-path GET call, the trace of
one `execute` call is cache-check, then validation, then build, then
dispatch, then cache-store — cache-check strictly precedes the
required-parameter validation, contradicting the claimed
validate-before-cache-lookup order. -/
theorem execute_pipeline_counterexample :
    executeTrace defaultConfig petTool [("id", .num 7)]
        (CacheState.empty ApiResponse) 0
        (fun _ => .ok ⟨200, "OK", [], .null⟩) =
      [.cacheCheck, .validateArgs, .buildStep, .dispatchStep, .cacheStore]
    ∧ (executeTrace defaultConfig petTool [("id", .num 7)]
        (CacheState.empty ApiResponse) 0
        (fun _ => .ok ⟨200, "OK", [], .null⟩)).indexOf
          StepEvent.cacheCheck <
      (executeTrace defaultConfig petTool [("id", .num 7)]
        (CacheState.empty ApiResponse) 0
        (fun _ => .ok ⟨200, "OK", [], .null⟩)).indexOf
          StepEvent.validateArgs := by
  constructor
  · rfl
  · decide

/-- C3 (amended): each `execute` call is a single linear pipeline
performed in the order cache-check (GET tools only), then
required-parameter validation, then request build, then dispatch, then
conditional cache-store, then return — every trace is a sublist of that
order, and for a GET tool the call begins with the cache lookup (so a
cache hit returns before validation runs). -/
theorem execute_pipeline_order (cfg : Config) (tool : ApiTool)
    (args : List (String × Value)) (cache : CacheState ApiResponse)
    (now : Nat) (dispatch : BuiltRequest → Except HttpError ApiResponse) :
    (executeTrace cfg tool args cache now dispatch).Sublist
      [.cacheCheck, .validateArgs, .buildStep, .dispatchStep, .cacheStore]
    ∧ (tool.method = "get" →
        (executeTrace cfg tool args cache now dispatch).head? =
          some .cacheCheck) := by
  constructor
  · have htc : traceCheckEvents tool args = [] ∨
        traceCheckEvents tool args = [.cacheCheck] := by
      unfold traceCheckEvents
      split
      · exact Or.inr rfl
      · exact Or.inl rfl
    unfold executeTrace
    rcases htc with htc | htc <;> rw [htc] <;> (repeat' split) <;> decide
  · intro hm
    have htc : traceCheckEvents tool args = [.cacheCheck] := by
      unfold traceCheckEvents
      rw [if_pos ⟨by simp [hm], buildCacheKey_isSome tool args hm⟩]
    unfold executeTrace
    rw [htc]
    (repeat' split) <;> rfl

/-- Witness for the amended C3: a GET call's trace starts with the cache
check and follows the pipeline order. -/
theorem execute_pipeline_order_witness :
    (executeTrace defaultConfig petTool [] (CacheState.empty ApiResponse) 0
        (fun _ => .error .network)).Sublist
      [.cacheCheck, .validateArgs, .buildStep, .dispatchStep, .cacheStore]
    ∧ (executeTrace defaultConfig petTool [] (CacheState.empty ApiResponse)
        0 (fun _ => .error .network)).head? = some .cacheCheck := by
  have h := execute_pipeline_order defaultConfig petTool []
    (CacheState.empty ApiResponse) 0 (fun _ => .error .network)
  exact ⟨h.1, h.2 rfl⟩

end PetstoreMcp
